import Mathlib

/-!
Verification development for the window/bookmark-folder synchronization engine
of the "Tab Group Bookmarks" browser extension (background.js).

The engine state (window-to-folder mappings, per-folder pinned URL sets,
last-used stamps, the `isSyncing` guard flag and the `pendingSyncs` set) and
the browser collaborators (windows holding ordered tab lists, bookmark folders
holding ordered child lists) are embedded shallowly:

* JS objects keyed by ids become association lists `List (Nat × _)`;
  `Object.keys(...).find(...)` over integer-like keys iterates keys in
  ascending numeric order, which `windowForFolder` reproduces by taking the
  minimum matching key.
* JS `Set` (insertion-ordered, duplicate-free) becomes a duplicate-free list
  with `addToSet`; `set.values().next().value` is the head of that list.
* `browser.bookmarks` / `browser.tabs` calls are modelled per the abstract
  collaborator contract: `create` with an index and `move` insert at the given
  position (clamped to the end when out of range, `insertAt`); `move` is
  remove-then-insert; ids are assigned from a fresh counter `nextId`; the
  title the browser eventually gives a tab it created for a URL is an
  unconstrained oracle parameter `pt : String → String`.
* Each collaborator mutation consults a failure oracle `fail : Nat → Bool`
  indexed by an operation counter; a `true` tick makes the call throw, which
  aborts the pass with the partial browser state (`Except`), mirroring an
  awaited promise rejection. `noFail` is the all-successes oracle.
* Suspension points cannot interleave in this single-actor model, so an
  entire reconciliation pass (and its synchronous drain of `pendingSyncs`,
  which the source fires without awaiting) runs atomically; the drain
  recursion is fuelled by the pending-list length, which strictly decreases.
-/

/-- A live tab: `browser.tabs` items carry an id, a URL, a title and a pinned
flag; its position is its index in the window's tab list. -/
structure Tab where
  id : Nat
  url : String
  title : String
  pinned : Bool
deriving Repr, DecidableEq

/-- A bookmark-folder child: `url = none` models a child folder (a JS bookmark
node without a `url` property); its position is its index in the parent's
child list. -/
structure Bookmark where
  id : Nat
  url : Option String
  title : String
deriving Repr, DecidableEq

/-- The browser collaborators: windows (ordered tab lists) and bookmark
folders (ordered child lists), plus the fresh-id counter used for every
object the browser creates. -/
structure BrowserState where
  windows : List (Nat × List Tab)
  folders : List (Nat × List Bookmark)
  nextId : Nat
deriving Repr, DecidableEq

/-- The engine's process-wide state: `windowMappings`, `pinnedTabsByFolder`,
`folderLastUsed`, the `isSyncing` guard flag and the `pendingSyncs` set,
together with the browser state the engine acts on. Mapping values are
`(folderId, folderTitle)`. -/
structure FullState where
  windowMappings : List (Nat × Nat × String)
  pinnedTabsByFolder : List (Nat × List String)
  folderLastUsed : List (Nat × Nat)
  isSyncing : Bool
  pendingSyncs : List Nat
  browser : BrowserState
deriving Repr, DecidableEq

/-- Association-list lookup, first match wins (JS object property access;
keys are unique by construction). -/
def alookup [BEq κ] (m : List (κ × β)) (k : κ) : Option β :=
  (m.find? (fun p => p.1 == k)).map (fun p => p.2)

/-- Association-list write `m[k] = v`: replace in place when the key exists,
append otherwise. -/
def setEntry [BEq κ] (m : List (κ × β)) (k : κ) (v : β) : List (κ × β) :=
  if (m.find? (fun p => p.1 == k)).isSome then
    m.map (fun p => if p.1 == k then (k, v) else p)
  else m ++ [(k, v)]

/-- JS `Set.add`: append unless already present (insertion order kept). -/
def addToSet [BEq α] (l : List α) (a : α) : List α :=
  if l.contains a then l else l ++ [a]

/-- `String.startsWith`, expressed over the character lists so that concrete
instances reduce in the kernel. -/
def strStartsWith (s p : String) : Bool :=
  p.data.isPrefixOf s.data

/-- URLs with the `about:` or `moz-extension:` scheme, excluded from
tab-side syncing (background.js lines 131, 228, 330, 376). -/
def specialUrl (u : String) : Bool :=
  strStartsWith u "about:" || strStartsWith u "moz-extension:"

/-- Attach the snapshot index to each element, starting at `n` (models the
`index` property of queried tabs/bookmarks, which the source compares against
target positions without refreshing after mutations). -/
def withIdx : Nat → List α → List (Nat × α)
  | _, [] => []
  | n, x :: xs => (n, x) :: withIdx (n + 1) xs

/-- Insert at position `n`, appending when `n` is past the end (the browser
clamps out-of-range `index` arguments). -/
def insertAt : Nat → α → List α → List α
  | 0, a, l => a :: l
  | _ + 1, a, [] => [a]
  | n + 1, a, x :: xs => x :: insertAt n a xs

/-- The `bookmarksByUrl` map of `syncTabsToBookmarks` (lines 209-214): built
from the snapshot with `Map.set` per child having a truthy `url`, so for a
given URL the last matching snapshot entry wins; the lookup returns that
entry together with its snapshot index. -/
def lookupLast (u : String) : List (Nat × Bookmark) → Option (Nat × Bookmark)
  | [] => none
  | x :: xs =>
    match lookupLast u xs with
    | some r => some r
    | none => if x.2.url == some u && u != "" then some x else none

/-- The `tabsByUrl` map of `syncBookmarksToTabs` (lines 328-333): per tab with
a truthy, non-special URL, last one wins. -/
def tabLookupLast (u : String) : List (Nat × Tab) → Option (Nat × Tab)
  | [] => none
  | x :: xs =>
    match tabLookupLast u xs with
    | some r => some r
    | none =>
      if x.2.url == u && x.2.url != "" && !specialUrl x.2.url then some x else none

/-- `browser.bookmarks.update(id, {title})`. -/
def updateTitle (f : List Bookmark) (bId : Nat) (t : String) : List Bookmark :=
  f.map (fun b => if b.id == bId then { b with title := t } else b)

/-- `browser.bookmarks.move(id, {index})`: remove the (unique) child with that
id and re-insert it at the requested index. -/
def moveTo (f : List Bookmark) (bId : Nat) (idx : Nat) : List Bookmark :=
  match f.find? (fun b => b.id == bId) with
  | none => f
  | some b => insertAt idx b (f.eraseP (fun b2 => b2.id == bId))

/-- `browser.bookmarks.remove(id)`. -/
def removeById (f : List Bookmark) (bId : Nat) : List Bookmark :=
  f.eraseP (fun b => b.id == bId)

/-- `browser.tabs.update(id, {pinned})`. -/
def setTabPinned (ts : List Tab) (tId : Nat) (p : Bool) : List Tab :=
  ts.map (fun t => if t.id == tId then { t with pinned := p } else t)

/-- `browser.tabs.move(id, {index})`. -/
def moveTabTo (ts : List Tab) (tId : Nat) (idx : Nat) : List Tab :=
  match ts.find? (fun t => t.id == tId) with
  | none => ts
  | some t => insertAt idx t (ts.eraseP (fun t2 => t2.id == tId))

/-- `browser.tabs.remove(id)`. -/
def removeTabById (ts : List Tab) (tId : Nat) : List Tab :=
  ts.eraseP (fun t => t.id == tId)

/-- The failure oracle under which every collaborator call succeeds. -/
def noFail : Nat → Bool := fun _ => false

/-- Mutable state threaded through the tab-walking loop of
`syncTabsToBookmarks`: the folder's current children, the fresh-id counter,
`seenBookmarkIds`, the pinned-URL set being rebuilt, `bookmarkIndex`, and the
operation counter for the failure oracle. -/
structure TBCtx where
  folder : List Bookmark
  nextId : Nat
  seen : List Nat
  pinnedUrls : List String
  bookmarkIndex : Nat
  tick : Nat
deriving Repr, DecidableEq

/-- Lines 234-238 of `syncTabsToBookmarks`: record a pinned tab's URL into
the pinned set being rebuilt. -/
def recordPinned (tab : Tab) (ctx : TBCtx) : TBCtx :=
  if tab.pinned then { ctx with pinnedUrls := addToSet ctx.pinnedUrls tab.url } else ctx

/-- The tab loop of `syncTabsToBookmarks` (lines 223-267): walk tabs in order,
skip falsy/`about:`/`moz-extension:` URLs, record pinned URLs, and for each
surviving tab either retain the snapshot-matched bookmark (updating its title
and moving it when its snapshot index differs from `bookmarkIndex`) or create
a new bookmark at `bookmarkIndex`. An error aborts with the partial context. -/
def syncTBLoop (fail : Nat → Bool) (snapshot : List (Nat × Bookmark)) :
    List Tab → TBCtx → Except TBCtx TBCtx
  | [], ctx => .ok ctx
  | tab :: rest, ctx =>
    if tab.url == "" || specialUrl tab.url then
      syncTBLoop fail snapshot rest ctx
    else
      let ctx1 := recordPinned tab ctx
      match lookupLast tab.url snapshot with
      | some (sIdx, b) => do
        let ctx2 := { ctx1 with seen := addToSet ctx1.seen b.id }
        let ctx3 ← if b.title != tab.title then
            if fail ctx2.tick then throw ctx2
            else pure { ctx2 with
              folder := updateTitle ctx2.folder b.id tab.title,
              tick := ctx2.tick + 1 }
          else pure ctx2
        let ctx4 ← if sIdx != ctx3.bookmarkIndex then
            if fail ctx3.tick then throw ctx3
            else pure { ctx3 with
              folder := moveTo ctx3.folder b.id ctx3.bookmarkIndex,
              tick := ctx3.tick + 1 }
          else pure ctx3
        syncTBLoop fail snapshot rest
          { ctx4 with bookmarkIndex := ctx4.bookmarkIndex + 1 }
      | none =>
        if fail ctx1.tick then throw ctx1
        else
          syncTBLoop fail snapshot rest
            { ctx1 with
              folder := insertAt ctx1.bookmarkIndex
                ⟨ctx1.nextId, some tab.url, tab.title⟩ ctx1.folder,
              nextId := ctx1.nextId + 1,
              seen := addToSet ctx1.seen ctx1.nextId,
              tick := ctx1.tick + 1,
              bookmarkIndex := ctx1.bookmarkIndex + 1 }

/-- The cleanup loop of `syncTabsToBookmarks` (lines 269-274): remove every
snapshot child whose id was not marked seen. -/
def cleanupTB (fail : Nat → Bool) (seen : List Nat) :
    List Bookmark → List Bookmark × Nat → Except (List Bookmark × Nat) (List Bookmark × Nat)
  | [], st => .ok st
  | b :: rest, (f, tick) =>
    if seen.contains b.id then cleanupTB fail seen rest (f, tick)
    else if fail tick then .error (f, tick)
    else cleanupTB fail seen rest (removeById f b.id, tick + 1)

/-- The body of a `syncTabsToBookmarks` pass (lines 199-281), run while the
guard is held: snapshot tabs and folder children, run the tab loop, run the
cleanup loop, then replace the folder's pinned set wholesale. An unknown
folder id makes `bookmarks.getSubTree` throw. On abort the partially mutated
browser state is returned and the pinned set is left unwritten. -/
def syncTabsBody (fail : Nat → Bool) (windowId folderId : Nat) (br : BrowserState)
    (pins : List (Nat × List String)) :
    Except BrowserState (BrowserState × List (Nat × List String)) :=
  let tabs := (alookup br.windows windowId).getD []
  match alookup br.folders folderId with
  | none => .error br
  | some children =>
    match syncTBLoop fail (withIdx 0 children) tabs ⟨children, br.nextId, [], [], 0, 0⟩ with
    | .error e =>
      .error { br with folders := setEntry br.folders folderId e.folder, nextId := e.nextId }
    | .ok ctx =>
      match cleanupTB fail ctx.seen children (ctx.folder, ctx.tick) with
      | .error (f, _) =>
        .error { br with folders := setEntry br.folders folderId f, nextId := ctx.nextId }
      | .ok (f, _) =>
        .ok ({ br with folders := setEntry br.folders folderId f, nextId := ctx.nextId },
          setEntry pins folderId ctx.pinnedUrls)

/-- Fold a pass outcome back into the engine state: on success both the
browser and the pinned map are replaced; on an abort only the partially
mutated browser state is. -/
def applyTabsOutcome (s : FullState) :
    Except BrowserState (BrowserState × List (Nat × List String)) → FullState
  | .error br => { s with browser := br }
  | .ok (br, pins) => { s with browser := br, pinnedTabsByFolder := pins }

/-- One admitted `syncTabsToBookmarks` pass: set the guard, run the body, and
release the guard unconditionally (the `finally` block), before any pending
drain. -/
def runTabsPass (fail : Nat → Bool) (windowId folderId : Nat) (s : FullState) : FullState :=
  { applyTabsOutcome { s with isSyncing := true }
      (syncTabsBody fail windowId folderId s.browser s.pinnedTabsByFolder) with
    isSyncing := false }

/-- `syncTabsToBookmarks` (lines 185-294) with explicit drain fuel: bail out
when the window has no mapping; defer (queue the window id) when a pass is
already running; otherwise run the pass and, in the `finally` block, pop the
first pending window id (JS `Set` iteration order) and re-run the
tab-to-bookmark direction for it. The fuel bounds the drain chain; callers
pass the pending-list length, which is exactly the depth the chain can reach,
so the zero-fuel cutoff is never hit with a non-empty queue. -/
def syncTabsGo (fail : Nat → Bool) : Nat → Nat → FullState → FullState
  | 0, wId, s =>
    match alookup s.windowMappings wId with
    | none => s
    | some (folderId, _) =>
      if s.isSyncing then { s with pendingSyncs := addToSet s.pendingSyncs wId }
      else runTabsPass fail wId folderId s
  | fuel + 1, wId, s =>
    match alookup s.windowMappings wId with
    | none => s
    | some (folderId, _) =>
      if s.isSyncing then { s with pendingSyncs := addToSet s.pendingSyncs wId }
      else
        let s2 := runTabsPass fail wId folderId s
        match s.pendingSyncs with
        | [] => s2
        | w :: rest => syncTabsGo fail fuel w { s2 with pendingSyncs := rest }

/-- `syncTabsToBookmarks(windowId)`. -/
def syncTabsToBookmarks (fail : Nat → Bool) (windowId : Nat) (s : FullState) : FullState :=
  syncTabsGo fail s.pendingSyncs.length windowId s

/-- The `Object.keys(windowMappings).find(wId => ... .folderId === folderId)`
scan (lines 301-303): integer-like JS object keys iterate in ascending
numeric order, so this is the smallest mapped window id for the folder. -/
def windowForFolder (m : List (Nat × Nat × String)) (folderId : Nat) : Option Nat :=
  (m.filter (fun p => p.2.1 == folderId)).foldl
    (fun acc p =>
      match acc with
      | none => some p.1
      | some w => some (min w p.1)) none

/-- Mutable state threaded through the bookmark-walking loop of
`syncBookmarksToTabs`: the window's current tab list, the fresh-id counter,
`seenTabIds`, and the operation counter. -/
structure BTCtx where
  tabs : List Tab
  nextId : Nat
  seen : List Nat
  tick : Nat
deriving Repr, DecidableEq

/-- The bookmark loop of `syncBookmarksToTabs` (lines 338-372): walk the
folder's children with their raw loop index `i` (folders without a URL are
skipped but still consume an index; special-scheme URLs are NOT skipped
here), and for each either retain the snapshot-matched tab (updating its
pinned flag and moving it to `i` when its snapshot index differs) or create a
new tab at index `i` whose pinned flag comes from the stored pinned set. -/
def syncBTLoop (pt : String → String) (fail : Nat → Bool) (pinnedUrls : List String)
    (snapshot : List (Nat × Tab)) :
    List (Nat × Bookmark) → BTCtx → Except BTCtx BTCtx
  | [], ctx => .ok ctx
  | (i, b) :: rest, ctx =>
    match b.url with
    | none => syncBTLoop pt fail pinnedUrls snapshot rest ctx
    | some u =>
      if u == "" then syncBTLoop pt fail pinnedUrls snapshot rest ctx
      else
        let shouldBePinned := pinnedUrls.contains u
        match tabLookupLast u snapshot with
        | some (sIdx, t) => do
          let ctx1 := { ctx with seen := addToSet ctx.seen t.id }
          let ctx2 ← if t.pinned != shouldBePinned then
              if fail ctx1.tick then throw ctx1
              else pure { ctx1 with
                tabs := setTabPinned ctx1.tabs t.id shouldBePinned,
                tick := ctx1.tick + 1 }
            else pure ctx1
          let ctx3 ← if sIdx != i then
              if fail ctx2.tick then throw ctx2
              else pure { ctx2 with
                tabs := moveTabTo ctx2.tabs t.id i,
                tick := ctx2.tick + 1 }
            else pure ctx2
          syncBTLoop pt fail pinnedUrls snapshot rest ctx3
        | none =>
          if fail ctx.tick then throw ctx
          else
            syncBTLoop pt fail pinnedUrls snapshot rest
              { ctx with
                tabs := insertAt i ⟨ctx.nextId, u, pt u, shouldBePinned⟩ ctx.tabs,
                nextId := ctx.nextId + 1,
                seen := addToSet ctx.seen ctx.nextId,
                tick := ctx.tick + 1 }

/-- The cleanup loop of `syncBookmarksToTabs` (lines 374-379): close every
snapshot tab that was not marked seen and whose URL is not special. -/
def cleanupBT (fail : Nat → Bool) (seen : List Nat) :
    List Tab → List Tab × Nat → Except (List Tab × Nat) (List Tab × Nat)
  | [], st => .ok st
  | t :: rest, (ts, tick) =>
    if !seen.contains t.id && !specialUrl t.url then
      if fail tick then .error (ts, tick)
      else cleanupBT fail seen rest (removeTabById ts t.id, tick + 1)
    else cleanupBT fail seen rest (ts, tick)

/-- The body of a `syncBookmarksToTabs` pass (lines 316-379): snapshot the
folder's children (an unknown folder id throws), the window's tabs, and the
stored pinned set; run the bookmark loop then the cleanup loop. The pinned
set is only read, never written. -/
def syncBTBody (pt : String → String) (fail : Nat → Bool) (windowId folderId : Nat)
    (br : BrowserState) (pins : List (Nat × List String)) :
    Except BrowserState BrowserState :=
  match alookup br.folders folderId with
  | none => .error br
  | some children =>
    let tabs := (alookup br.windows windowId).getD []
    let pinnedUrls := (alookup pins folderId).getD []
    match syncBTLoop pt fail pinnedUrls (withIdx 0 tabs) (withIdx 0 children)
        ⟨tabs, br.nextId, [], 0⟩ with
    | .error e =>
      .error { br with windows := setEntry br.windows windowId e.tabs, nextId := e.nextId }
    | .ok ctx =>
      match cleanupBT fail ctx.seen tabs (ctx.tabs, ctx.tick) with
      | .error (ts, _) =>
        .error { br with windows := setEntry br.windows windowId ts, nextId := ctx.nextId }
      | .ok (ts, _) =>
        .ok { br with windows := setEntry br.windows windowId ts, nextId := ctx.nextId }

/-- Fold a bookmark-to-tab pass outcome back into the engine state; the type
records that this direction never writes the pinned map. -/
def applyBTOutcome (s : FullState) : Except BrowserState BrowserState → FullState
  | .error br => { s with browser := br }
  | .ok br => { s with browser := br }

/-- One admitted `syncBookmarksToTabs` pass: set the guard, run the body,
release the guard unconditionally. -/
def runBTPass (pt : String → String) (fail : Nat → Bool) (windowId folderId : Nat)
    (s : FullState) : FullState :=
  { applyBTOutcome { s with isSyncing := true }
      (syncBTBody pt fail windowId folderId s.browser s.pinnedTabsByFolder) with
    isSyncing := false }

/-- `syncBookmarksToTabs(folderId)` (lines 299-392): locate the mapped window
(no-op when none); defer when a pass is running; otherwise run the pass and
drain one pending window id — through `syncTabsToBookmarks`, the
tab-to-bookmark direction, exactly as the source's `finally` block does. -/
def syncBookmarksToTabs (pt : String → String) (fail : Nat → Bool) (folderId : Nat)
    (s : FullState) : FullState :=
  match windowForFolder s.windowMappings folderId with
  | none => s
  | some windowId =>
    if s.isSyncing then { s with pendingSyncs := addToSet s.pendingSyncs windowId }
    else
      let s2 := runBTPass pt fail windowId folderId s
      match s.pendingSyncs with
      | [] => s2
      | w :: rest => syncTabsToBookmarks fail w { s2 with pendingSyncs := rest }

/-- `disassociateWindow(windowId)` (lines 117-120): delete the mapping and
persist; nothing else is touched. -/
def disassociateWindow (windowId : Nat) (s : FullState) : FullState :=
  { s with windowMappings := s.windowMappings.eraseP (fun p => p.1 == windowId) }

/-- The tab-creation loop of `openFolderAsNewWindow` (lines 163-172): one
`browser.tabs.create` per URL bookmark, in folder order, without an index
(append), pinned when the bookmark's URL is in the stored pinned set. -/
def createTabsFold (pt : String → String) (pinnedUrls : List String) (windowId : Nat) :
    List Bookmark → BrowserState → BrowserState
  | [], br => br
  | b :: rest, br =>
    let u := (b.url).getD ""
    let t : Tab := ⟨br.nextId, u, pt u, pinnedUrls.contains u⟩
    createTabsFold pt pinnedUrls windowId rest
      { br with
        windows := setEntry br.windows windowId
          (((alookup br.windows windowId).getD []) ++ [t]),
        nextId := br.nextId + 1 }

/-- `browser.windows.create()`: a fresh window holding one fresh blank tab. -/
def createWindow (pt : String → String) (br : BrowserState) : BrowserState × Nat :=
  ({ br with
      windows := br.windows ++
        [(br.nextId, [⟨br.nextId + 1, "about:blank", pt "about:blank", false⟩])],
      nextId := br.nextId + 2 },
    br.nextId)

/-- `openFolderAsNewWindow(folderId, folderTitle)` (lines 125-180): filter the
folder's children to URL bookmarks outside the special schemes; when none,
open an empty window and map it; otherwise open a window, capture the initial
blank tab's id, map the window, stamp last-used, create the tabs in order
(pinned per the stored pinned set), and finally remove the blank tab. Returns
the new window's id; `none` models `bookmarks.getSubTree` throwing. -/
def openFolderAsNewWindow (pt : String → String) (now : Nat) (folderId : Nat)
    (folderTitle : String) (s : FullState) : Option (FullState × Nat) :=
  match alookup s.browser.folders folderId with
  | none => none
  | some children =>
    let urlBookmarks := children.filter (fun b =>
      match b.url with
      | some u => u != "" && !specialUrl u
      | none => false)
    if urlBookmarks.isEmpty then
      let (br1, wid) := createWindow pt s.browser
      some ({ s with
          browser := br1,
          windowMappings := setEntry s.windowMappings wid (folderId, folderTitle),
          folderLastUsed := setEntry s.folderLastUsed folderId now }, wid)
    else
      let pinnedUrls := (alookup s.pinnedTabsByFolder folderId).getD []
      let (br1, wid) := createWindow pt s.browser
      let initialBlankTabId := ((alookup br1.windows wid).getD []).head?.map Tab.id
      let br2 := createTabsFold pt pinnedUrls wid urlBookmarks br1
      let br3 := match initialBlankTabId with
        | some tId =>
          { br2 with
            windows := setEntry br2.windows wid
              (removeTabById ((alookup br2.windows wid).getD []) tId) }
        | none => br2
      some ({ s with
          browser := br3,
          windowMappings := setEntry s.windowMappings wid (folderId, folderTitle),
          folderLastUsed := setEntry s.folderLastUsed folderId now }, wid)

/-! ## Association-list and wrapper lemmas -/

theorem alookup_nil [BEq κ] (k : κ) : alookup ([] : List (κ × β)) k = none := rfl

theorem alookup_not_mem (m : List (Nat × β)) (k : Nat)
    (h : k ∉ m.map (fun p => p.1)) : alookup m k = none := by
  induction m with
  | nil => rfl
  | cons p rest ih =>
    simp only [List.map_cons, List.mem_cons] at h
    push_neg at h
    simp only [alookup, List.find?]
    have hp : (p.1 == k) = false := by
      simp [Ne.symm h.1]
    simp only [hp]
    exact ih h.2

theorem alookup_eraseP_self (m : List (Nat × β)) (k : Nat)
    (hnd : (m.map (fun p => p.1)).Nodup) :
    alookup (m.eraseP (fun p => p.1 == k)) k = none := by
  induction m with
  | nil => rfl
  | cons p rest ih =>
    simp only [List.map_cons, List.nodup_cons] at hnd
    by_cases hk : p.1 = k
    · subst hk
      simp only [List.eraseP_cons, beq_self_eq_true]
      exact alookup_not_mem rest p.1 hnd.1
    · have hpk : (p.1 == k) = false := by simp [hk]
      simp only [List.eraseP_cons, hpk, alookup, List.find?, hpk]
      exact ih hnd.2

theorem alookup_eraseP_ne (m : List (Nat × β)) (k w : Nat) (hw : w ≠ k) :
    alookup (m.eraseP (fun p => p.1 == k)) w = alookup m w := by
  induction m with
  | nil => rfl
  | cons p rest ih =>
    by_cases hk : p.1 = k
    · subst hk
      simp only [List.eraseP_cons, beq_self_eq_true]
      have hpw : (p.1 == w) = false := by simp [Ne.symm hw]
      simp only [alookup, List.find?, hpw]
      rfl
    · have hpk : (p.1 == k) = false := by simp [hk]
      simp only [List.eraseP_cons, hpk]
      by_cases hpw : p.1 = w
      · simp only [alookup, List.find?, hpw, beq_self_eq_true]
      · have hpw2 : (p.1 == w) = false := by simp [hpw]
        simp only [alookup, List.find?, hpw2]
        exact ih

theorem alookup_append_fresh_beq [BEq κ] [LawfulBEq κ] (m : List (κ × β)) (k : κ) (v : β)
    (h : ∀ p ∈ m, ¬(p.1 == k) = true) :
    alookup (m ++ [(k, v)]) k = some v := by
  induction m with
  | nil => simp [alookup, List.find?]
  | cons p rest ih =>
    have hpk : (p.1 == k) = false := by
      have := h p (by simp)
      simpa using this
    simp only [List.cons_append, alookup, List.find?, hpk]
    exact ih (fun q hq => h q (by simp [hq]))

theorem alookup_mapReplace [BEq κ] [LawfulBEq κ] (m : List (κ × β)) (k : κ) (v : β)
    (h : (m.find? (fun p => p.1 == k)).isSome) :
    alookup (m.map (fun p => if p.1 == k then (k, v) else p)) k = some v := by
  induction m with
  | nil => simp at h
  | cons p rest ih =>
    by_cases hk : p.1 = k
    · subst hk
      simp [alookup, List.find?]
    · have hpk : (p.1 == k) = false := by simp [hk]
      simp only [List.find?, hpk] at h
      simp only [List.map_cons, hpk, Bool.false_eq_true, if_false, alookup, List.find?, hpk]
      exact ih h

theorem alookup_setEntry_self [BEq κ] [LawfulBEq κ] (m : List (κ × β)) (k : κ) (v : β) :
    alookup (setEntry m k v) k = some v := by
  unfold setEntry
  by_cases hs : (m.find? (fun p => p.1 == k)).isSome
  · rw [if_pos hs]
    exact alookup_mapReplace m k v hs
  · rw [if_neg hs]
    have hs2 : m.find? (fun p => p.1 == k) = none :=
      Option.not_isSome_iff_eq_none.mp hs
    rw [List.find?_eq_none] at hs2
    exact alookup_append_fresh_beq m k v hs2

theorem alookup_append_fresh (m : List (Nat × β)) (k : Nat) (v : β)
    (h : ∀ p ∈ m, p.1 ≠ k) :
    alookup (m ++ [(k, v)]) k = some v := by
  induction m with
  | nil => simp [alookup, List.find?]
  | cons p rest ih =>
    have hpk : (p.1 == k) = false := by
      simp [h p (by simp)]
    simp only [List.cons_append, alookup, List.find?, hpk]
    exact ih (fun q hq => h q (by simp [hq]))

theorem contains_iff_mem (l : List Nat) (a : Nat) : l.contains a = true ↔ a ∈ l := by
  simp [List.contains, List.elem_iff]

theorem mem_addToSet (l : List Nat) (a z : Nat) :
    z ∈ addToSet l a ↔ z ∈ l ∨ z = a := by
  unfold addToSet
  by_cases h : l.contains a = true
  · rw [if_pos h]
    rw [contains_iff_mem] at h
    constructor
    · exact Or.inl
    · rintro (hz | rfl)
      · exact hz
      · exact h
  · rw [if_neg h]
    simp

theorem contains_addToSet_self (l : List Nat) (a : Nat) :
    (addToSet l a).contains a = true := by
  rw [contains_iff_mem, mem_addToSet]
  right
  rfl

theorem contains_addToSet_mono (l : List Nat) (a b : Nat) (h : l.contains b = true) :
    (addToSet l a).contains b = true := by
  rw [contains_iff_mem] at h ⊢
  rw [mem_addToSet]
  exact Or.inl h

theorem runTabsPass_pendingSyncs (fail : Nat → Bool) (wId fId : Nat) (s : FullState) :
    (runTabsPass fail wId fId s).pendingSyncs = s.pendingSyncs := by
  unfold runTabsPass
  cases h : syncTabsBody fail wId fId s.browser s.pinnedTabsByFolder with
  | error e => simp [applyTabsOutcome]
  | ok v => cases v with
    | mk br pins => simp [applyTabsOutcome]

theorem runTabsPass_isSyncing (fail : Nat → Bool) (wId fId : Nat) (s : FullState) :
    (runTabsPass fail wId fId s).isSyncing = false := by
  unfold runTabsPass
  cases h : syncTabsBody fail wId fId s.browser s.pinnedTabsByFolder with
  | error e => simp [applyTabsOutcome]
  | ok v => cases v with
    | mk br pins => simp [applyTabsOutcome]

theorem runTabsPass_windowMappings (fail : Nat → Bool) (wId fId : Nat) (s : FullState) :
    (runTabsPass fail wId fId s).windowMappings = s.windowMappings := by
  unfold runTabsPass
  cases h : syncTabsBody fail wId fId s.browser s.pinnedTabsByFolder with
  | error e => simp [applyTabsOutcome]
  | ok v => cases v with
    | mk br pins => simp [applyTabsOutcome]

theorem runBTPass_pendingSyncs (pt : String → String) (fail : Nat → Bool)
    (wId fId : Nat) (s : FullState) :
    (runBTPass pt fail wId fId s).pendingSyncs = s.pendingSyncs := by
  unfold runBTPass
  cases h : syncBTBody pt fail wId fId s.browser s.pinnedTabsByFolder with
  | error e => simp [applyBTOutcome]
  | ok br => simp [applyBTOutcome]

theorem runBTPass_isSyncing (pt : String → String) (fail : Nat → Bool)
    (wId fId : Nat) (s : FullState) :
    (runBTPass pt fail wId fId s).isSyncing = false := by
  unfold runBTPass
  cases h : syncBTBody pt fail wId fId s.browser s.pinnedTabsByFolder with
  | error e => simp [applyBTOutcome]
  | ok br => simp [applyBTOutcome]

theorem runBTPass_pinned (pt : String → String) (fail : Nat → Bool)
    (wId fId : Nat) (s : FullState) :
    (runBTPass pt fail wId fId s).pinnedTabsByFolder = s.pinnedTabsByFolder := by
  unfold runBTPass
  cases h : syncBTBody pt fail wId fId s.browser s.pinnedTabsByFolder with
  | error e => simp [applyBTOutcome]
  | ok br => simp [applyBTOutcome]

/-- Deferral is fuel-independent: with the guard held, any call with a valid
mapping only queues the window id. -/
theorem syncTabsGo_defer (fail : Nat → Bool) (fuel wId fId : Nat) (ft : String)
    (s : FullState) (hm : alookup s.windowMappings wId = some (fId, ft))
    (hsy : s.isSyncing = true) :
    syncTabsGo fail fuel wId s = { s with pendingSyncs := addToSet s.pendingSyncs wId } := by
  cases fuel <;> simp [syncTabsGo, hm, hsy]

/-- An unmapped window is a fuel-independent no-op. -/
theorem syncTabsGo_nomap (fail : Nat → Bool) (fuel wId : Nat) (s : FullState)
    (hm : alookup s.windowMappings wId = none) :
    syncTabsGo fail fuel wId s = s := by
  cases fuel <;> simp [syncTabsGo, hm]

/-- An admitted call with an empty pending queue is exactly one pass. -/
theorem syncTabsGo_run_empty (fail : Nat → Bool) (fuel wId fId : Nat) (ft : String)
    (s : FullState) (hm : alookup s.windowMappings wId = some (fId, ft))
    (hsy : s.isSyncing = false) (hp : s.pendingSyncs = []) :
    syncTabsGo fail fuel wId s = runTabsPass fail wId fId s := by
  cases fuel <;> simp [syncTabsGo, hm, hsy, hp]

/-! ## Concrete states exhibiting the reconciler defects -/

/-- Window 1 (mapped to folder 10) holds tabs with URLs `[un, ub, um]`; folder
10 holds entries `[ua, ub]`. All URLs are ordinary and pairwise distinct. -/
def bugInputC1 : FullState :=
  { windowMappings := [(1, 10, "F")],
    pinnedTabsByFolder := [],
    folderLastUsed := [],
    isSyncing := false,
    pendingSyncs := [],
    browser :=
      { windows := [(1, [⟨1, "un", "N", false⟩, ⟨2, "ub", "B", false⟩, ⟨3, "um", "M", false⟩])],
        folders := [(10, [⟨100, some "ua", "A"⟩, ⟨101, some "ub", "B"⟩])],
        nextId := 200 } }

/-- Window 1 (mapped to folder 10) holds two tabs with the same URL `u1`;
folder 10 is empty. -/
def bugInputC2 : FullState :=
  { windowMappings := [(1, 10, "F")],
    pinnedTabsByFolder := [],
    folderLastUsed := [],
    isSyncing := false,
    pendingSyncs := [],
    browser :=
      { windows := [(1, [⟨1, "u1", "T", false⟩, ⟨2, "u1", "T", false⟩])],
        folders := [(10, [])],
        nextId := 50 } }

/-- Folder 10 (mapped from window 1) holds one entry whose URL has the
special `about:` scheme; window 1 is empty. -/
def bugInputC3 : FullState :=
  { windowMappings := [(1, 10, "F")],
    pinnedTabsByFolder := [],
    folderLastUsed := [],
    isSyncing := false,
    pendingSyncs := [],
    browser :=
      { windows := [(1, [])],
        folders := [(10, [⟨100, some "about:config", "cfg"⟩])],
        nextId := 200 } }

/-- Folder 10 (mapped from window 1) holds entries `[un, ub, um]`; window 1
holds tabs `[ua, ub]`. All URLs are ordinary and pairwise distinct, no child
folders, no pinned state. -/
def bugInputC4 : FullState :=
  { windowMappings := [(1, 10, "F")],
    pinnedTabsByFolder := [],
    folderLastUsed := [],
    isSyncing := false,
    pendingSyncs := [],
    browser :=
      { windows := [(1, [⟨1, "ua", "A", false⟩, ⟨2, "ub", "B", false⟩])],
        folders := [(10, [⟨100, some "un", "N"⟩, ⟨101, some "ub", "B"⟩, ⟨102, some "um", "M"⟩])],
        nextId := 200 } }

/-- C1: the claim says that after a completed `syncTabsToBookmarks` pass the
folder's children carry exactly the window's tab-URL sequence in tab order.
Evaluating the code on `bugInputC1` refutes this: the live (non-excluded) tab
URL sequence is `[un, ub, um]`, yet the completed pass leaves the folder's
children in order `[un, um, ub]`. The cause is the stale snapshot index: tab
`ub` has target position 1 and its bookmark's snapshot index is 1, so no move
is issued, even though the bookmark created for `un` at position 0 has already
shifted it to position 2; the bookmark for `um` is then created at position 2,
landing in front of it. -/
theorem c1_completed_pass_order_diverges :
    (((alookup bugInputC1.browser.windows 1).getD []).filter
        (fun t => !(t.url == "" || specialUrl t.url))).map (fun t => some t.url)
      = [some "un", some "ub", some "um"]
    ∧ ((alookup (syncTabsToBookmarks noFail 1 bugInputC1).browser.folders 10).getD
        []).map Bookmark.url
      = [some "un", some "um", some "ub"] := by
  decide

/-- C2: the claim says two live tabs sharing URL `U` produce exactly one
durable entry for `U`. Evaluating the code on `bugInputC2` refutes this: the
URL-to-bookmark map is built once from the pre-pass snapshot and never learns
about bookmarks the pass itself creates, so the second tab with URL `u1` also
misses and a second bookmark for `u1` is created — the completed pass leaves
two entries for `u1`, not one. -/
theorem c2_duplicate_url_two_entries :
    (((alookup bugInputC2.browser.windows 1).getD []).countP (fun t => t.url == "u1") = 2)
    ∧ (((alookup (syncTabsToBookmarks noFail 1 bugInputC2).browser.folders 10).getD
        []).countP (fun b => b.url == some "u1") = 2) := by
  decide

/-- C3: the claim says special-scheme URLs are never materialized as tabs by
any reconciliation. Evaluating the code on `bugInputC3` refutes this for
`syncBookmarksToTabs`: its bookmark loop only skips children without a URL
(line 343) — unlike `syncTabsToBookmarks` (line 228) and
`openFolderAsNewWindow` (line 131) it has no scheme filter — so a folder
entry with URL `about:config` is not found among the (scheme-filtered) tabs
and a tab is created for it. -/
theorem c3_special_entry_materialized :
    ((alookup bugInputC3.browser.folders 10).getD []).map Bookmark.url
      = [some "about:config"]
    ∧ specialUrl "about:config" = true
    ∧ ((alookup (syncBookmarksToTabs (fun _ => "") noFail 10 bugInputC3).browser.windows
        1).getD []).map Tab.url = ["about:config"] := by
  decide

/-- C4: the claim says that after a completed `syncBookmarksToTabs` pass the
window's tab order mirrors the folder's URL sequence, each entry's tab at the
entry's ordinal position. Evaluating the code on `bugInputC4` refutes this:
the folder's URL sequence is `[un, ub, um]`, yet the completed pass leaves
the window's tabs in order `[un, um, ub]` — the same stale-snapshot-index
defect as on the tab-to-bookmark side, mirrored. -/
theorem c4_completed_pass_tab_order_diverges :
    ((alookup bugInputC4.browser.folders 10).getD []).map Bookmark.url
      = [some "un", some "ub", some "um"]
    ∧ ((alookup (syncBookmarksToTabs (fun _ => "") noFail 10 bugInputC4).browser.windows
        1).getD []).map Tab.url = ["un", "um", "ub"] := by
  decide

/-- C5: the guard admits at most one pass at a time — a reconciliation
request arriving while a pass runs (guard flag set) performs no mutation and
returns immediately after adding its window id to the pending set, in both
directions, and a repeated request for a window already pending leaves the
state completely unchanged (the pending set collapses duplicates). -/
theorem c5_guard_defers (pt : String → String) (fail : Nat → Bool) (s : FullState)
    (wId fId fId2 w2 : Nat) (ft : String)
    (hsy : s.isSyncing = true)
    (hm : alookup s.windowMappings wId = some (fId, ft))
    (hw : windowForFolder s.windowMappings fId2 = some w2) :
    syncTabsToBookmarks fail wId s = { s with pendingSyncs := addToSet s.pendingSyncs wId }
    ∧ syncBookmarksToTabs pt fail fId2 s = { s with pendingSyncs := addToSet s.pendingSyncs w2 }
    ∧ (wId ∈ s.pendingSyncs → syncTabsToBookmarks fail wId s = s)
    ∧ (w2 ∈ s.pendingSyncs → syncBookmarksToTabs pt fail fId2 s = s) := by
  have h1 : syncTabsToBookmarks fail wId s
      = { s with pendingSyncs := addToSet s.pendingSyncs wId } :=
    syncTabsGo_defer fail _ wId fId ft s hm hsy
  have h2 : syncBookmarksToTabs pt fail fId2 s
      = { s with pendingSyncs := addToSet s.pendingSyncs w2 } := by
    simp [syncBookmarksToTabs, hw, hsy]
  refine ⟨h1, h2, ?_, ?_⟩
  · intro hmem
    rw [h1]
    have he : addToSet s.pendingSyncs wId = s.pendingSyncs := by
      unfold addToSet
      rw [if_pos ((contains_iff_mem _ _).mpr hmem)]
    rw [he]
  · intro hmem
    rw [h2]
    have he : addToSet s.pendingSyncs w2 = s.pendingSyncs := by
      unfold addToSet
      rw [if_pos ((contains_iff_mem _ _).mpr hmem)]
    rw [he]

/-- Deferred state used to witness the guard theorems. -/
def wit5 : FullState :=
  { windowMappings := [(1, 10, "F")],
    pinnedTabsByFolder := [],
    folderLastUsed := [],
    isSyncing := true,
    pendingSyncs := [7],
    browser := { windows := [], folders := [], nextId := 0 } }

theorem c5_guard_defers_witness :
    (wit5.isSyncing = true)
    ∧ (alookup wit5.windowMappings 1 = some (10, "F"))
    ∧ (windowForFolder wit5.windowMappings 10 = some 1)
    ∧ (syncTabsToBookmarks noFail 1 wit5
          = { wit5 with pendingSyncs := addToSet wit5.pendingSyncs 1 }
      ∧ syncBookmarksToTabs (fun _ => "") noFail 10 wit5
          = { wit5 with pendingSyncs := addToSet wit5.pendingSyncs 1 }
      ∧ (1 ∈ wit5.pendingSyncs → syncTabsToBookmarks noFail 1 wit5 = wit5)
      ∧ (1 ∈ wit5.pendingSyncs → syncBookmarksToTabs (fun _ => "") noFail 10 wit5 = wit5)) :=
  ⟨by decide, by decide, by decide,
    c5_guard_defers (fun _ => "") noFail wit5 1 10 10 1 "F" (by decide) (by decide) (by decide)⟩

/-- C7: on exit of a pass (either direction) with a non-empty pending set,
exactly the first pending window id is removed and the continuation is the
tab-to-bookmark reconciler on it — also when the completed pass was
bookmark-originated. -/
theorem c7_exit_drains_one_into_tab_direction (pt : String → String) (fail : Nat → Bool)
    (s : FullState) (wId fId fId2 w2 w : Nat) (ft : String) (rest : List Nat)
    (hsy : s.isSyncing = false)
    (hpend : s.pendingSyncs = w :: rest)
    (hm : alookup s.windowMappings wId = some (fId, ft))
    (hw : windowForFolder s.windowMappings fId2 = some w2) :
    syncTabsToBookmarks fail wId s
      = syncTabsToBookmarks fail w { runTabsPass fail wId fId s with pendingSyncs := rest }
    ∧ syncBookmarksToTabs pt fail fId2 s
      = syncTabsToBookmarks fail w { runBTPass pt fail w2 fId2 s with pendingSyncs := rest } := by
  constructor
  · simp only [syncTabsToBookmarks, hpend, List.length_cons]
    simp [syncTabsGo, hm, hsy, hpend]
  · simp only [syncBookmarksToTabs, hw, hsy, hpend]
    simp [syncTabsToBookmarks]

/-- Admitted state with one pending window, used to witness the drain
theorem. -/
def wit7 : FullState :=
  { windowMappings := [(1, 10, "F")],
    pinnedTabsByFolder := [],
    folderLastUsed := [],
    isSyncing := false,
    pendingSyncs := [5],
    browser := { windows := [(1, [])], folders := [(10, [])], nextId := 0 } }

theorem c7_exit_drains_one_into_tab_direction_witness :
    (wit7.isSyncing = false)
    ∧ (wit7.pendingSyncs = 5 :: [])
    ∧ (alookup wit7.windowMappings 1 = some (10, "F"))
    ∧ (windowForFolder wit7.windowMappings 10 = some 1)
    ∧ (syncTabsToBookmarks noFail 1 wit7
          = syncTabsToBookmarks noFail 5 { runTabsPass noFail 1 10 wit7 with pendingSyncs := [] }
      ∧ syncBookmarksToTabs (fun _ => "") noFail 10 wit7
          = syncTabsToBookmarks noFail 5
              { runBTPass (fun _ => "") noFail 1 10 wit7 with pendingSyncs := [] }) :=
  ⟨by decide, by decide, by decide, by decide,
    c7_exit_drains_one_into_tab_direction (fun _ => "") noFail wit7 1 10 10 1 5 "F" []
      (by decide) (by decide) (by decide) (by decide)⟩

/-- C8: `disassociateWindow` removes only the window's mapping — the browser
state (hence the folder's children: count, content and order) and the
persisted pinned set are untouched, and every other window's mapping is
preserved. -/
theorem c8_disassociate_preserves_folder (s : FullState) (wId fId : Nat) (ft : String)
    (hm : alookup s.windowMappings wId = some (fId, ft))
    (hnd : (s.windowMappings.map (fun p => p.1)).Nodup) :
    disassociateWindow wId s
      = { s with windowMappings := s.windowMappings.eraseP (fun p => p.1 == wId) }
    ∧ alookup (disassociateWindow wId s).windowMappings wId = none
    ∧ (∀ w, w ≠ wId →
        alookup (disassociateWindow wId s).windowMappings w = alookup s.windowMappings w)
    ∧ (disassociateWindow wId s).browser = s.browser
    ∧ (disassociateWindow wId s).pinnedTabsByFolder = s.pinnedTabsByFolder
    ∧ alookup (disassociateWindow wId s).browser.folders fId
        = alookup s.browser.folders fId := by
  refine ⟨rfl, ?_, ?_, rfl, rfl, rfl⟩
  · exact alookup_eraseP_self _ _ hnd
  · intro w hww
    exact alookup_eraseP_ne _ _ _ hww

/-- Mapped state used to witness the disassociation theorem. -/
def wit8 : FullState :=
  { windowMappings := [(1, 10, "F"), (2, 11, "G")],
    pinnedTabsByFolder := [(10, ["u1"])],
    folderLastUsed := [],
    isSyncing := false,
    pendingSyncs := [],
    browser :=
      { windows := [(1, [⟨1, "u1", "T", true⟩])],
        folders := [(10, [⟨100, some "u1", "T"⟩])],
        nextId := 200 } }

theorem c8_disassociate_preserves_folder_witness :
    (alookup wit8.windowMappings 1 = some (10, "F"))
    ∧ ((wit8.windowMappings.map (fun p => p.1)).Nodup)
    ∧ (disassociateWindow 1 wit8
          = { wit8 with windowMappings := wit8.windowMappings.eraseP (fun p => p.1 == 1) }
      ∧ alookup (disassociateWindow 1 wit8).windowMappings 1 = none
      ∧ (∀ w, w ≠ 1 →
          alookup (disassociateWindow 1 wit8).windowMappings w = alookup wit8.windowMappings w)
      ∧ (disassociateWindow 1 wit8).browser = wit8.browser
      ∧ (disassociateWindow 1 wit8).pinnedTabsByFolder = wit8.pinnedTabsByFolder
      ∧ alookup (disassociateWindow 1 wit8).browser.folders 10
          = alookup wit8.browser.folders 10) :=
  ⟨by decide, by decide,
    c8_disassociate_preserves_folder wit8 1 10 "F" (by decide) (by decide)⟩

/-- C6: a pass that throws mid-pass (the body aborts with the partially
mutated browser state) still releases the guard flag — the `finally`
equivalent — in both directions: the resulting state carries the partial
browser state, the guard is down, the pinned set is unwritten, the failed
work is not retried (the partial state is final), and any subsequent
reconciliation request on the resulting state is admitted rather than
deferred (it never grows the pending set). -/
theorem c6_error_releases_guard (pt : String → String) (fail fail2 : Nat → Bool)
    (s : FullState) (wId fId fId2 w2 : Nat) (ft : String) (e e2 : BrowserState)
    (hsy : s.isSyncing = false) (hp : s.pendingSyncs = [])
    (hm : alookup s.windowMappings wId = some (fId, ft))
    (herr : syncTabsBody fail wId fId s.browser s.pinnedTabsByFolder = .error e)
    (hw : windowForFolder s.windowMappings fId2 = some w2)
    (herr2 : syncBTBody pt fail2 w2 fId2 s.browser s.pinnedTabsByFolder = .error e2) :
    syncTabsToBookmarks fail wId s = { s with browser := e }
    ∧ (syncTabsToBookmarks fail wId s).isSyncing = false
    ∧ (syncTabsToBookmarks fail wId s).pinnedTabsByFolder = s.pinnedTabsByFolder
    ∧ syncBookmarksToTabs pt fail2 fId2 s = { s with browser := e2 }
    ∧ (syncBookmarksToTabs pt fail2 fId2 s).isSyncing = false
    ∧ (∀ g w3, (syncTabsToBookmarks g w3 { s with browser := e }).pendingSyncs = [])
    ∧ (∀ g f3, (syncBookmarksToTabs pt g f3 { s with browser := e }).pendingSyncs = []) := by
  obtain ⟨wm, pins, flu, sy, pd, br⟩ := s
  simp only at hsy hp hm herr hw herr2
  subst hsy hp
  have h1 : syncTabsToBookmarks fail wId ⟨wm, pins, flu, false, [], br⟩
      = { FullState.mk wm pins flu false [] br with browser := e } := by
    simp only [syncTabsToBookmarks]
    rw [syncTabsGo_run_empty fail _ wId fId ft _ hm rfl rfl]
    simp [runTabsPass, applyTabsOutcome, herr]
  have h2 : syncBookmarksToTabs pt fail2 fId2 ⟨wm, pins, flu, false, [], br⟩
      = { FullState.mk wm pins flu false [] br with browser := e2 } := by
    simp only [syncBookmarksToTabs, hw]
    simp [runBTPass, applyBTOutcome, herr2]
  refine ⟨h1, by rw [h1], by rw [h1], h2, by rw [h2], ?_, ?_⟩
  · intro g w3
    cases hma : alookup wm w3 with
    | none =>
      rw [syncTabsToBookmarks, syncTabsGo_nomap g _ w3 _ hma]
    | some m =>
      rw [syncTabsToBookmarks,
        syncTabsGo_run_empty g _ w3 m.1 m.2 _ (by rw [hma]) rfl rfl,
        runTabsPass_pendingSyncs]
  · intro g f3
    cases hwf : windowForFolder wm f3 with
    | none => simp [syncBookmarksToTabs, hwf]
    | some w4 =>
      simp only [syncBookmarksToTabs, hwf]
      simp [runBTPass_pendingSyncs]

/-- State whose passes abort on their second collaborator mutation under
`failSnd`, used to witness the guard-release theorem. -/
def wit6 : FullState :=
  { windowMappings := [(1, 10, "F")],
    pinnedTabsByFolder := [],
    folderLastUsed := [],
    isSyncing := false,
    pendingSyncs := [],
    browser :=
      { windows := [(1, [⟨1, "u1", "T1", false⟩, ⟨2, "u2", "T2", false⟩])],
        folders := [(10, [⟨100, some "u3", "T3"⟩, ⟨101, some "u4", "T4"⟩])],
        nextId := 200 } }

/-- Failure oracle that throws on the second collaborator mutation of a
pass. -/
def failSnd : Nat → Bool := fun t => t == 1

/-- The partial browser state at which the tab-to-bookmark pass on `wit6`
aborts: the first bookmark was created, the second creation threw. -/
def wit6TabsErr : BrowserState :=
  { windows := [(1, [⟨1, "u1", "T1", false⟩, ⟨2, "u2", "T2", false⟩])],
    folders := [(10, [⟨200, some "u1", "T1"⟩, ⟨100, some "u3", "T3"⟩, ⟨101, some "u4", "T4"⟩])],
    nextId := 201 }

/-- The partial browser state at which the bookmark-to-tab pass on `wit6`
aborts: the first tab was created, the second creation threw. -/
def wit6BTErr : BrowserState :=
  { windows := [(1, [⟨200, "u3", "", false⟩, ⟨1, "u1", "T1", false⟩, ⟨2, "u2", "T2", false⟩])],
    folders := [(10, [⟨100, some "u3", "T3"⟩, ⟨101, some "u4", "T4"⟩])],
    nextId := 201 }

theorem c6_error_releases_guard_witness :
    (wit6.isSyncing = false)
    ∧ (wit6.pendingSyncs = [])
    ∧ (alookup wit6.windowMappings 1 = some (10, "F"))
    ∧ (syncTabsBody failSnd 1 10 wit6.browser wit6.pinnedTabsByFolder = .error wit6TabsErr)
    ∧ (windowForFolder wit6.windowMappings 10 = some 1)
    ∧ (syncBTBody (fun _ => "") failSnd 1 10 wit6.browser wit6.pinnedTabsByFolder
        = .error wit6BTErr)
    ∧ (syncTabsToBookmarks failSnd 1 wit6 = { wit6 with browser := wit6TabsErr }
      ∧ (syncTabsToBookmarks failSnd 1 wit6).isSyncing = false
      ∧ (syncTabsToBookmarks failSnd 1 wit6).pinnedTabsByFolder = wit6.pinnedTabsByFolder
      ∧ syncBookmarksToTabs (fun _ => "") failSnd 10 wit6 = { wit6 with browser := wit6BTErr }
      ∧ (syncBookmarksToTabs (fun _ => "") failSnd 10 wit6).isSyncing = false
      ∧ (∀ g w3, (syncTabsToBookmarks g w3 { wit6 with browser := wit6TabsErr }).pendingSyncs = [])
      ∧ (∀ g f3,
          (syncBookmarksToTabs (fun _ => "") g f3
            { wit6 with browser := wit6TabsErr }).pendingSyncs = [])) :=
  ⟨by decide, by decide, by decide, by rfl, by decide, by rfl,
    c6_error_releases_guard (fun _ => "") failSnd failSnd wit6 1 10 10 1 "F"
      wit6TabsErr wit6BTErr (by decide) (by decide) (by decide) (by rfl)
      (by decide) (by rfl)⟩

/-! ## List lemmas for the reconciler loops -/

theorem insertAt_perm (a : α) : ∀ (n : Nat) (l : List α), (insertAt n a l).Perm (a :: l) := by
  intro n
  induction n with
  | zero => intro l; exact .refl _
  | succ n ih =>
    intro l
    cases l with
    | nil => exact .refl _
    | cons x xs => exact ((ih xs).cons x).trans (List.Perm.swap a x xs)

theorem find_eraseP_perm (p : α → Bool) :
    ∀ (l : List α) (b : α), l.find? p = some b → l.Perm (b :: l.eraseP p) := by
  intro l
  induction l with
  | nil => intro b h; simp at h
  | cons x xs ih =>
    intro b h
    by_cases hx : p x = true
    · rw [List.find?_cons_of_pos _ hx] at h
      cases h
      rw [List.eraseP_cons_of_pos hx]
    · have hx2 : ¬p x = true := hx
      rw [List.find?_cons_of_neg _ hx2] at h
      rw [List.eraseP_cons_of_neg hx2]
      exact ((ih b h).cons x).trans (List.Perm.swap b x _)

theorem moveTo_perm (f : List Bookmark) (bId idx : Nat) : (moveTo f bId idx).Perm f := by
  unfold moveTo
  cases h : f.find? (fun b => b.id == bId) with
  | none => exact .refl _
  | some b =>
    exact (insertAt_perm b idx _).trans (find_eraseP_perm _ f b h).symm

theorem moveTabTo_perm (ts : List Tab) (tId idx : Nat) : (moveTabTo ts tId idx).Perm ts := by
  unfold moveTabTo
  cases h : ts.find? (fun t => t.id == tId) with
  | none => exact .refl _
  | some t =>
    exact (insertAt_perm t idx _).trans (find_eraseP_perm _ ts t h).symm

theorem updateTitle_idurl (f : List Bookmark) (bId : Nat) (t : String) :
    (updateTitle f bId t).map (fun b => (b.id, b.url)) = f.map (fun b => (b.id, b.url)) := by
  unfold updateTitle
  rw [List.map_map]
  apply List.map_congr_left
  intro b _
  by_cases h : b.id = bId <;> simp [h]

theorem updateTitle_ids (f : List Bookmark) (bId : Nat) (t : String) :
    (updateTitle f bId t).map Bookmark.id = f.map Bookmark.id := by
  unfold updateTitle
  rw [List.map_map]
  apply List.map_congr_left
  intro b _
  by_cases h : b.id = bId <;> simp [h]

theorem mem_updateTitle (f : List Bookmark) (bId : Nat) (t : String) (x : Bookmark)
    (hx : x ∈ updateTitle f bId t) : ∃ y ∈ f, x.id = y.id ∧ x.url = y.url := by
  unfold updateTitle at hx
  rw [List.mem_map] at hx
  obtain ⟨y, hy, hxy⟩ := hx
  subst hxy
  refine ⟨y, hy, ?_⟩
  by_cases h : y.id = bId
  · simp [h]
  · simp [h]

theorem updateTitle_mem_of_ne (f : List Bookmark) (bId : Nat) (t : String) (b : Bookmark)
    (hb : b ∈ f) (hne : b.id ≠ bId) : b ∈ updateTitle f bId t := by
  unfold updateTitle
  have : (fun x => if x.id == bId then { x with title := t } else x) b = b := by
    simp [hne]
  rw [← this]
  exact List.mem_map_of_mem _ hb

theorem lookupLast_mem (u : String) :
    ∀ (sn : List (Nat × Bookmark)) (i : Nat) (b : Bookmark),
      lookupLast u sn = some (i, b) → (i, b) ∈ sn ∧ b.url = some u ∧ u ≠ "" := by
  intro sn
  induction sn with
  | nil => intro i b h; simp [lookupLast] at h
  | cons x xs ih =>
    intro i b h
    rw [lookupLast] at h
    cases hr : lookupLast u xs with
    | some r =>
      rw [hr] at h
      cases h
      obtain ⟨hm, hu, hne⟩ := ih _ _ hr
      exact ⟨List.mem_cons_of_mem _ hm, hu, hne⟩
    | none =>
      rw [hr] at h
      by_cases hc : (x.2.url == some u && u != "") = true
      · rw [if_pos hc] at h
        cases h
        simp only [Bool.and_eq_true, beq_iff_eq, bne_iff_ne, ne_eq] at hc
        exact ⟨List.mem_cons_self _ _, hc.1, hc.2⟩
      · rw [if_neg hc] at h
        simp at h

theorem mem_withIdx : ∀ (n : Nat) (l : List α) (i : Nat) (x : α),
    (i, x) ∈ withIdx n l → x ∈ l := by
  intro n l
  induction l generalizing n with
  | nil => intro i x h; simp [withIdx] at h
  | cons y ys ih =>
    intro i x h
    rw [withIdx] at h
    rcases List.mem_cons.mp h with h1 | h2
    · cases h1
      exact List.mem_cons_self _ _
    · exact List.mem_cons_of_mem _ (ih _ _ _ h2)

theorem removeById_not_mem (f : List Bookmark) (z : Nat)
    (hnd : (f.map Bookmark.id).Nodup) : z ∉ (removeById f z).map Bookmark.id := by
  unfold removeById
  induction f with
  | nil => simp
  | cons x xs ih =>
    simp only [List.map_cons, List.nodup_cons] at hnd
    rw [List.eraseP_cons]
    by_cases hx : x.id = z
    · simp only [hx, beq_self_eq_true, cond_true]
      rw [← hx]
      exact hnd.1
    · have hb : (x.id == z) = false := by simp [hx]
      simp only [hb, cond_false, List.map_cons, List.mem_cons]
      push_neg
      exact ⟨Ne.symm hx, ih hnd.2⟩

theorem recordPinned_folder (tab : Tab) (ctx : TBCtx) :
    (recordPinned tab ctx).folder = ctx.folder := by
  unfold recordPinned; split <;> rfl

theorem recordPinned_nextId (tab : Tab) (ctx : TBCtx) :
    (recordPinned tab ctx).nextId = ctx.nextId := by
  unfold recordPinned; split <;> rfl

theorem recordPinned_seen (tab : Tab) (ctx : TBCtx) :
    (recordPinned tab ctx).seen = ctx.seen := by
  unfold recordPinned; split <;> rfl

theorem recordPinned_bookmarkIndex (tab : Tab) (ctx : TBCtx) :
    (recordPinned tab ctx).bookmarkIndex = ctx.bookmarkIndex := by
  unfold recordPinned; split <;> rfl

theorem recordPinned_tick (tab : Tab) (ctx : TBCtx) :
    (recordPinned tab ctx).tick = ctx.tick := by
  unfold recordPinned; split <;> rfl

/-- Invariant of the tab loop used to analyse cleanup, over the loop context's
folder, fresh-counter and seen fields: folder ids are below the fresh counter
and duplicate-free; every child without a URL is unseen and descends from an
original URL-less child; URL-less originals are never removed by the loop;
original ids stay below the counter. -/
def TBInvF (cs folder : List Bookmark) (nid : Nat) (seen : List Nat) : Prop :=
  (∀ x ∈ folder, x.id < nid)
  ∧ (folder.map Bookmark.id).Nodup
  ∧ (∀ x ∈ folder, x.url = none → x.id ∉ seen ∧ ∃ b ∈ cs, b.id = x.id ∧ b.url = none)
  ∧ (∀ b ∈ cs, b.url = none → b ∈ folder)
  ∧ (∀ b ∈ cs, b.id < nid)

theorem TBInvF_seen_matched (cs f : List Bookmark) (nid : Nat) (sn : List Nat)
    (b : Bookmark) (u : String)
    (hids : (cs.map Bookmark.id).Nodup)
    (hb : b ∈ cs) (hu : b.url = some u) (h : TBInvF cs f nid sn) :
    TBInvF cs f nid (addToSet sn b.id) := by
  obtain ⟨h1, h2, h3, h4, h5⟩ := h
  refine ⟨h1, h2, ?_, h4, h5⟩
  intro x hx hxu
  obtain ⟨hxs, b2, hb2, hbid, hbu⟩ := h3 x hx hxu
  refine ⟨?_, b2, hb2, hbid, hbu⟩
  rw [mem_addToSet]
  push_neg
  refine ⟨hxs, ?_⟩
  intro hxb
  have hbb2 : b = b2 := by
    have := List.inj_on_of_nodup_map hids hb hb2
    exact this (by rw [hbid, hxb])
  rw [hbb2, hbu] at hu
  exact Option.noConfusion hu

theorem TBInvF_updateTitle (cs f : List Bookmark) (nid : Nat) (sn : List Nat)
    (b : Bookmark) (u t : String)
    (hids : (cs.map Bookmark.id).Nodup)
    (hb : b ∈ cs) (hu : b.url = some u) (h : TBInvF cs f nid sn) :
    TBInvF cs (updateTitle f b.id t) nid sn := by
  obtain ⟨h1, h2, h3, h4, h5⟩ := h
  refine ⟨?_, ?_, ?_, ?_, h5⟩
  · intro x hx
    obtain ⟨y, hy, hyid, _⟩ := mem_updateTitle _ _ _ _ hx
    rw [hyid]
    exact h1 y hy
  · rw [updateTitle_ids]
    exact h2
  · intro x hx hxu
    obtain ⟨y, hy, hyid, hyurl⟩ := mem_updateTitle _ _ _ _ hx
    rw [hyurl] at hxu
    obtain ⟨hys, b2, hb2, hbid, hbu⟩ := h3 y hy hxu
    rw [hyid]
    exact ⟨hys, b2, hb2, hbid, hbu⟩
  · intro b2 hb2 hb2u
    apply updateTitle_mem_of_ne _ _ _ _ (h4 b2 hb2 hb2u)
    intro hsame
    have hbb2 : b2 = b := by
      have := List.inj_on_of_nodup_map hids hb2 hb
      exact this hsame
    rw [hbb2, hu] at hb2u
    exact Option.noConfusion hb2u

theorem TBInvF_moveTo (cs f : List Bookmark) (nid : Nat) (sn : List Nat)
    (z idx : Nat) (h : TBInvF cs f nid sn) :
    TBInvF cs (moveTo f z idx) nid sn := by
  obtain ⟨h1, h2, h3, h4, h5⟩ := h
  have hp := moveTo_perm f z idx
  refine ⟨?_, ?_, ?_, ?_, h5⟩
  · intro x hx
    exact h1 x (hp.mem_iff.mp hx)
  · exact ((hp.map Bookmark.id).nodup_iff).mpr h2
  · intro x hx hxu
    exact h3 x (hp.mem_iff.mp hx) hxu
  · intro b2 hb2 hb2u
    exact hp.mem_iff.mpr (h4 b2 hb2 hb2u)

theorem TBInvF_create (cs f : List Bookmark) (nid : Nat) (sn : List Nat)
    (u t : String) (k : Nat) (h : TBInvF cs f nid sn) :
    TBInvF cs (insertAt k ⟨nid, some u, t⟩ f) (nid + 1) (addToSet sn nid) := by
  obtain ⟨h1, h2, h3, h4, h5⟩ := h
  have hp := insertAt_perm (⟨nid, some u, t⟩ : Bookmark) k f
  refine ⟨?_, ?_, ?_, ?_, ?_⟩
  · intro x hx
    rcases List.mem_cons.mp (hp.mem_iff.mp hx) with hx1 | hx2
    · rw [hx1]
      exact Nat.lt_succ_self _
    · exact Nat.lt_succ_of_lt (h1 x hx2)
  · refine ((hp.map Bookmark.id).nodup_iff).mpr ?_
    rw [List.map_cons, List.nodup_cons]
    constructor
    · intro hmem
      rw [List.mem_map] at hmem
      obtain ⟨y, hy, hyid⟩ := hmem
      exact absurd hyid (Nat.ne_of_lt (h1 y hy))
    · exact h2
  · intro x hx hxu
    rcases List.mem_cons.mp (hp.mem_iff.mp hx) with hx1 | hx2
    · rw [hx1] at hxu
      exact Option.noConfusion hxu
    · obtain ⟨hxs, b2, hb2, hbid, hbu⟩ := h3 x hx2 hxu
      refine ⟨?_, b2, hb2, hbid, hbu⟩
      rw [mem_addToSet]
      push_neg
      exact ⟨hxs, Nat.ne_of_lt (h1 x hx2)⟩
  · intro b2 hb2 hb2u
    exact hp.mem_iff.mpr (List.mem_cons_of_mem _ (h4 b2 hb2 hb2u))
  · intro b2 hb2
    exact Nat.lt_succ_of_lt (h5 b2 hb2)

/-- Under the all-successes oracle the tab loop completes and preserves the
cleanup invariant. -/
theorem syncTBLoop_inv (cs : List Bookmark) (hids : (cs.map Bookmark.id).Nodup) :
    ∀ (tabs : List Tab) (ctx : TBCtx), TBInvF cs ctx.folder ctx.nextId ctx.seen →
    ∃ ctx2, syncTBLoop noFail (withIdx 0 cs) tabs ctx = .ok ctx2
      ∧ TBInvF cs ctx2.folder ctx2.nextId ctx2.seen := by
  intro tabs
  induction tabs with
  | nil =>
    intro ctx h
    exact ⟨ctx, rfl, h⟩
  | cons tab rest ih =>
    intro ctx h
    have hinv1 : TBInvF cs (recordPinned tab ctx).folder (recordPinned tab ctx).nextId
        (recordPinned tab ctx).seen := by
      rw [recordPinned_folder, recordPinned_nextId, recordPinned_seen]
      exact h
    by_cases hskip : (tab.url == "" || specialUrl tab.url) = true
    · simp only [syncTBLoop, if_pos hskip]
      exact ih ctx h
    · cases hlk : lookupLast tab.url (withIdx 0 cs) with
      | none =>
        simp only [syncTBLoop, if_neg hskip, hlk, noFail, Bool.false_eq_true, if_false]
        refine ih _ ?_
        simp only [recordPinned_folder, recordPinned_nextId, recordPinned_seen]
        exact TBInvF_create cs ctx.folder ctx.nextId ctx.seen tab.url tab.title
          (recordPinned tab ctx).bookmarkIndex
          (by rw [← recordPinned_folder tab ctx, ← recordPinned_nextId tab ctx,
            ← recordPinned_seen tab ctx]; exact hinv1)
      | some pr =>
        obtain ⟨sIdx, b⟩ := pr
        obtain ⟨hmem, hurl, hne⟩ := lookupLast_mem tab.url _ _ _ hlk
        have hbcs : b ∈ cs := mem_withIdx 0 cs sIdx b hmem
        have hinv2 : TBInvF cs ctx.folder ctx.nextId (addToSet ctx.seen b.id) :=
          TBInvF_seen_matched cs ctx.folder ctx.nextId ctx.seen b tab.url hids hbcs hurl h
        by_cases hti : (b.title != tab.title) = true
        · by_cases hix : (sIdx != ctx.bookmarkIndex) = true
          · simp only [syncTBLoop, if_neg hskip, hlk, noFail, Bool.false_eq_true, if_false,
              hti, if_true, pure_bind, recordPinned_folder, recordPinned_nextId,
              recordPinned_seen, recordPinned_bookmarkIndex, recordPinned_tick, hix]
            refine ih _ ?_
            simp only
            exact TBInvF_moveTo cs _ ctx.nextId _ b.id ctx.bookmarkIndex
              (TBInvF_updateTitle cs ctx.folder ctx.nextId _ b tab.url tab.title
                hids hbcs hurl hinv2)
          · have hix2 : (sIdx != ctx.bookmarkIndex) = false := by simpa using hix
            simp only [syncTBLoop, if_neg hskip, hlk, noFail, Bool.false_eq_true, if_false,
              hti, if_true, pure_bind, recordPinned_folder, recordPinned_nextId,
              recordPinned_seen, recordPinned_bookmarkIndex, recordPinned_tick, hix2]
            refine ih _ ?_
            simp only
            exact TBInvF_updateTitle cs ctx.folder ctx.nextId _ b tab.url tab.title
              hids hbcs hurl hinv2
        · have hti2 : (b.title != tab.title) = false := by simpa using hti
          by_cases hix : (sIdx != ctx.bookmarkIndex) = true
          · simp only [syncTBLoop, if_neg hskip, hlk, noFail, Bool.false_eq_true, if_false,
              hti2, pure_bind, recordPinned_folder, recordPinned_nextId,
              recordPinned_seen, recordPinned_bookmarkIndex, recordPinned_tick, hix, if_true]
            refine ih _ ?_
            simp only
            exact TBInvF_moveTo cs ctx.folder ctx.nextId _ b.id ctx.bookmarkIndex hinv2
          · have hix2 : (sIdx != ctx.bookmarkIndex) = false := by simpa using hix
            simp only [syncTBLoop, if_neg hskip, hlk, noFail, Bool.false_eq_true, if_false,
              hti2, pure_bind, recordPinned_folder, recordPinned_nextId,
              recordPinned_seen, recordPinned_bookmarkIndex, recordPinned_tick, hix2]
            refine ih _ ?_
            simp only
            exact hinv2

/-- Under the all-successes oracle the cleanup loop completes, returning a
sublist of the folder it started from. -/
theorem cleanupTB_spec (seen : List Nat) :
    ∀ (snap f : List Bookmark) (tick : Nat),
    ∃ f2 t2, cleanupTB noFail seen snap (f, tick) = .ok (f2, t2) ∧ f2.Sublist f := by
  intro snap
  induction snap with
  | nil =>
    intro f tick
    exact ⟨f, tick, rfl, List.Sublist.refl f⟩
  | cons b rest ih =>
    intro f tick
    by_cases hb : seen.contains b.id = true
    · simp only [cleanupTB, hb, if_true]
      exact ih f tick
    · have hb2 : seen.contains b.id = false := by simpa using hb
      simp only [cleanupTB, hb2, Bool.false_eq_true, if_false, noFail]
      obtain ⟨f2, t2, heq, hsub⟩ := ih (removeById f b.id) (tick + 1)
      exact ⟨f2, t2, heq, hsub.trans (List.eraseP_sublist f)⟩

/-- The cleanup loop removes every unseen snapshot child: its id is absent
from the result (ids assumed duplicate-free on both lists). -/
theorem cleanupTB_removes (seen : List Nat) :
    ∀ (snap f : List Bookmark) (tick : Nat) (b : Bookmark),
      b ∈ snap → (snap.map Bookmark.id).Nodup → b.id ∉ seen →
      (f.map Bookmark.id).Nodup →
      ∀ f2 t2, cleanupTB noFail seen snap (f, tick) = .ok (f2, t2) →
      b.id ∉ f2.map Bookmark.id := by
  intro snap
  induction snap with
  | nil =>
    intro f tick b hb
    simp at hb
  | cons c rest ih =>
    intro f tick b hb hnd hbs hfnd f2 t2 heq
    simp only [List.map_cons, List.nodup_cons] at hnd
    by_cases hc : seen.contains c.id = true
    · simp only [cleanupTB, hc, if_true] at heq
      have hbrest : b ∈ rest := by
        rcases List.mem_cons.mp hb with rfl | h2
        · exact absurd ((contains_iff_mem _ _).mp hc) hbs
        · exact h2
      exact ih f tick b hbrest hnd.2 hbs hfnd f2 t2 heq
    · have hc2 : seen.contains c.id = false := by simpa using hc
      simp only [cleanupTB, hc2, Bool.false_eq_true, if_false, noFail] at heq
      by_cases hbc : b.id = c.id
      · obtain ⟨f3, t3, heq2, hsub⟩ := cleanupTB_spec seen rest (removeById f c.id) (tick + 1)
        rw [heq2] at heq
        cases heq
        rw [hbc]
        intro hmem
        exact removeById_not_mem f c.id hfnd ((hsub.map Bookmark.id).subset hmem)
      · have hbrest : b ∈ rest := by
          rcases List.mem_cons.mp hb with rfl | h2
          · exact absurd rfl hbc
          · exact h2
        have hfnd2 : ((removeById f c.id).map Bookmark.id).Nodup :=
          hfnd.sublist ((List.eraseP_sublist f).map Bookmark.id)
        exact ih (removeById f c.id) (tick + 1) b hbrest hnd.2 hbs hfnd2 f2 t2 heq

/-- C10: a completed tab-to-bookmark pass deletes every child of the synced
folder that is not matched by a tab URL, including children that are not URL
entries at all (child subfolders): the URL lookup never answers with a
URL-less child (last conjunct), such children are never marked retained, and
the cleanup loop removes them — afterwards no URL-less child remains and the
ids of the original URL-less children are gone. -/
theorem c10_nonurl_children_removed (s : FullState) (wId fId : Nat) (ft : String)
    (cs : List Bookmark)
    (hm : alookup s.windowMappings wId = some (fId, ft))
    (hsy : s.isSyncing = false) (hpend : s.pendingSyncs = [])
    (hcs : alookup s.browser.folders fId = some cs)
    (hids : (cs.map Bookmark.id).Nodup)
    (hfresh : ∀ b ∈ cs, b.id < s.browser.nextId) :
    ∃ final, alookup (syncTabsToBookmarks noFail wId s).browser.folders fId = some final
      ∧ (∀ x ∈ final, x.url ≠ none)
      ∧ (∀ b ∈ cs, b.url = none → b.id ∉ final.map Bookmark.id)
      ∧ (∀ u i b, lookupLast u (withIdx 0 cs) = some (i, b) → b.url = some u) := by
  rw [syncTabsToBookmarks, syncTabsGo_run_empty noFail _ wId fId ft s hm hsy hpend]
  have hinv0 : TBInvF cs cs s.browser.nextId [] := by
    refine ⟨hfresh, hids, ?_, ?_, hfresh⟩
    · intro x hx hxu
      exact ⟨by simp, x, hx, rfl, hxu⟩
    · intro b hb _
      exact hb
  obtain ⟨ctx2, hloop, hinv⟩ := syncTBLoop_inv cs hids
    ((alookup s.browser.windows wId).getD []) ⟨cs, s.browser.nextId, [], [], 0, 0⟩ hinv0
  obtain ⟨f2, t2, hclean, hsub⟩ := cleanupTB_spec ctx2.seen cs ctx2.folder ctx2.tick
  obtain ⟨hb1, hb2, hb3, hb4, hb5⟩ := hinv
  simp only [runTabsPass, syncTabsBody, hcs, hloop, hclean, applyTabsOutcome]
  refine ⟨f2, ?_, ?_, ?_, ?_⟩
  · exact alookup_setEntry_self _ _ _
  · intro x hx hxu
    have hxf : x ∈ ctx2.folder := hsub.subset hx
    obtain ⟨hxs, b2, hb2cs, hb2id, hb2u⟩ := hb3 x hxf hxu
    have : b2.id ∉ f2.map Bookmark.id :=
      cleanupTB_removes ctx2.seen cs ctx2.folder ctx2.tick b2 hb2cs hids
        (by rw [hb2id]; exact hxs) hb2 f2 t2 hclean
    exact this (by rw [hb2id]; exact List.mem_map_of_mem _ hx)
  · intro b hb hbu
    have hbf : b ∈ ctx2.folder := hb4 b hb hbu
    obtain ⟨hbs, _, _, _, _⟩ := hb3 b hbf hbu
    exact cleanupTB_removes ctx2.seen cs ctx2.folder ctx2.tick b hb hids hbs hb2
      f2 t2 hclean
  · intro u i b hl
    exact (lookupLast_mem u _ i b hl).2.1

/-- Mapped state whose folder holds a child subfolder (no URL) plus one URL
entry matching the single live tab, used to witness the cleanup theorem. -/
def wit10 : FullState :=
  { windowMappings := [(1, 10, "F")],
    pinnedTabsByFolder := [],
    folderLastUsed := [],
    isSyncing := false,
    pendingSyncs := [],
    browser :=
      { windows := [(1, [⟨1, "u1", "T", false⟩])],
        folders := [(10, [⟨100, none, "sub"⟩, ⟨101, some "u1", "T"⟩])],
        nextId := 200 } }

/-- The folder children of `wit10`. -/
def wit10cs : List Bookmark := [⟨100, none, "sub"⟩, ⟨101, some "u1", "T"⟩]

theorem c10_nonurl_children_removed_witness :
    (alookup wit10.windowMappings 1 = some (10, "F"))
    ∧ (wit10.isSyncing = false)
    ∧ (wit10.pendingSyncs = [])
    ∧ (alookup wit10.browser.folders 10 = some wit10cs)
    ∧ ((wit10cs.map Bookmark.id).Nodup)
    ∧ (∀ b ∈ wit10cs, b.id < wit10.browser.nextId)
    ∧ (∃ final,
        alookup (syncTabsToBookmarks noFail 1 wit10).browser.folders 10 = some final
        ∧ (∀ x ∈ final, x.url ≠ none)
        ∧ (∀ b ∈ wit10cs, b.url = none → b.id ∉ final.map Bookmark.id)
        ∧ (∀ u i b, lookupLast u (withIdx 0 wit10cs) = some (i, b) → b.url = some u)) :=
  ⟨by decide, by decide, by decide, by decide, by decide, by decide,
    c10_nonurl_children_removed wit10 1 10 "F" wit10cs (by decide) (by decide)
      (by decide) (by decide) (by decide) (by decide)⟩

/-! ## Round-trip lemmas -/

theorem withIdx_append (n : Nat) :
    ∀ (l1 l2 : List α), withIdx n (l1 ++ l2) = withIdx n l1 ++ withIdx (n + l1.length) l2 := by
  intro l1
  induction l1 generalizing n with
  | nil => intro l2; simp [withIdx]
  | cons x xs ih =>
    intro l2
    simp only [List.cons_append, withIdx, List.length_cons, List.append_eq]
    rw [ih (n + 1) l2]
    have harith : n + 1 + xs.length = n + (xs.length + 1) := by omega
    rw [harith]

theorem lookupLast_append (u : String) (A B : List (Nat × Bookmark)) :
    lookupLast u (A ++ B)
      = match lookupLast u B with
        | some r => some r
        | none => lookupLast u A := by
  induction A with
  | nil =>
    simp only [List.nil_append]
    cases lookupLast u B <;> simp [lookupLast]
  | cons x xs ih =>
    cases hB : lookupLast u B with
    | some r =>
      simp only [hB] at ih
      simp only [List.cons_append, lookupLast, List.append_eq, ih, hB]
    | none =>
      simp only [hB] at ih
      simp only [List.cons_append, lookupLast, List.append_eq, ih, hB]

theorem lookupLast_none (u : String) :
    ∀ (n : Nat) (l : List Bookmark), (∀ x ∈ l, x.url ≠ some u) →
    lookupLast u (withIdx n l) = none := by
  intro n l
  induction l generalizing n with
  | nil => intro _; rfl
  | cons x xs ih =>
    intro h
    simp only [withIdx, lookupLast, ih (n + 1) (fun y hy => h y (List.mem_cons_of_mem _ hy))]
    have hx : (x.url == some u) = false := by
      simpa using h x (List.mem_cons_self _ _)
    simp [hx]

theorem lookupLast_split (u : String) (l1 l2 : List Bookmark) (b : Bookmark)
    (hu : b.url = some u) (hne : u ≠ "")
    (h1 : ∀ x ∈ l1, x.url ≠ some u) (h2 : ∀ x ∈ l2, x.url ≠ some u) :
    lookupLast u (withIdx 0 (l1 ++ b :: l2)) = some (l1.length, b) := by
  rw [withIdx_append, lookupLast_append]
  have hmid : lookupLast u (withIdx (0 + l1.length) (b :: l2)) = some (l1.length, b) := by
    simp only [withIdx, lookupLast, lookupLast_none u _ l2 h2]
    have hb : (b.url == some u) = true := by simp [hu]
    have hne2 : (u != "") = true := by simpa using hne
    simp [hb, hne2]
  rw [hmid]

theorem nodup_middle_not_mem {l1 l2 : List α} {a : α} (h : (l1 ++ a :: l2).Nodup) :
    a ∉ l1 ∧ a ∉ l2 := by
  rw [List.nodup_append] at h
  obtain ⟨h1, h2, hd⟩ := h
  rw [List.nodup_cons] at h2
  exact ⟨fun hm => hd hm (List.mem_cons_self _ _), h2.1⟩

/-- If every snapshot child was marked seen, the cleanup loop changes
nothing. -/
theorem cleanupTB_noop (seen : List Nat) :
    ∀ (snap : List Bookmark) (f : List Bookmark) (tick : Nat),
      (∀ b ∈ snap, b.id ∈ seen) →
      cleanupTB noFail seen snap (f, tick) = .ok (f, tick) := by
  intro snap
  induction snap with
  | nil => intro f tick _; rfl
  | cons b rest ih =>
    intro f tick h
    have hb : seen.contains b.id = true :=
      (contains_iff_mem _ _).mpr (h b (List.mem_cons_self _ _))
    simp only [cleanupTB, hb, if_true]
    exact ih f tick (fun c hc => h c (List.mem_cons_of_mem _ hc))

/-- The tab-creation loop of `openFolderAsNewWindow` appends one tab per
bookmark, URL-aligned with the bookmark list, and touches nothing else. -/
theorem createTabsFold_spec (pt : String → String) (pins : List String) (wid : Nat) :
    ∀ (l : List Bookmark) (br : BrowserState) (ts : List Tab),
      alookup br.windows wid = some ts →
      (∀ b ∈ l, ∃ u, b.url = some u) →
      ∃ ts2, alookup (createTabsFold pt pins wid l br).windows wid = some (ts ++ ts2)
        ∧ List.Forall₂ (fun (t : Tab) (b : Bookmark) => b.url = some t.url) ts2 l
        ∧ (createTabsFold pt pins wid l br).folders = br.folders := by
  intro l
  induction l with
  | nil =>
    intro br ts hts _
    refine ⟨[], ?_, List.Forall₂.nil, rfl⟩
    simpa using hts
  | cons b rest ih =>
    intro br ts hts hall
    obtain ⟨u, hu⟩ := hall b (List.mem_cons_self _ _)
    have hget : (b.url).getD "" = u := by rw [hu]; rfl
    simp only [createTabsFold, hts, Option.getD_some, hget]
    obtain ⟨ts2, hl, hf, hfold⟩ := ih
      { br with
        windows := setEntry br.windows wid (ts ++ [⟨br.nextId, u, pt u, pins.contains u⟩]),
        nextId := br.nextId + 1 }
      (ts ++ [⟨br.nextId, u, pt u, pins.contains u⟩])
      (alookup_setEntry_self _ _ _)
      (fun c hc => hall c (List.mem_cons_of_mem _ hc))
    refine ⟨⟨br.nextId, u, pt u, pins.contains u⟩ :: ts2, ?_, ?_, ?_⟩
    · rw [List.append_assoc, List.singleton_append] at hl
      exact hl
    · exact List.Forall₂.cons (by rw [hu]) hf
    · exact hfold

/-- When the live tabs are URL-aligned with the remaining folder suffix (as
after `openFolderAsNewWindow`), the tab loop matches every tab at exactly its
target index: no moves, no creations, no deletions — the folder's id/URL
sequence is untouched and every original id is marked seen. -/
theorem syncTBLoop_aligned (cs : List Bookmark)
    (hall : ∀ b ∈ cs, ∃ u, b.url = some u ∧ u ≠ "" ∧ specialUrl u = false)
    (hurls : (cs.map Bookmark.url).Nodup)
    (hids : (cs.map Bookmark.id).Nodup) :
    ∀ (tabs : List Tab) (rest done f : List Bookmark)
      (nid : Nat) (seen : List Nat) (pin : List String) (tick : Nat),
      cs = done ++ rest →
      List.Forall₂ (fun (t : Tab) (b : Bookmark) => b.url = some t.url) tabs rest →
      f.map (fun b => (b.id, b.url)) = cs.map (fun b => (b.id, b.url)) →
      (∀ b ∈ done, b.id ∈ seen) →
      ∃ ctx2, syncTBLoop noFail (withIdx 0 cs) tabs ⟨f, nid, seen, pin, done.length, tick⟩
          = .ok ctx2
        ∧ ctx2.folder.map (fun b => (b.id, b.url)) = cs.map (fun b => (b.id, b.url))
        ∧ (∀ b ∈ cs, b.id ∈ ctx2.seen) := by
  intro tabs
  induction tabs with
  | nil =>
    intro rest done f nid seen pin tick hcs hf2 hproj hseen
    cases hf2
    refine ⟨⟨f, nid, seen, pin, done.length, tick⟩, rfl, hproj, ?_⟩
    intro b hb
    rw [hcs, List.append_nil] at hb
    exact hseen b hb
  | cons t ts ih =>
    intro rest done f nid seen pin tick hcs hf2 hproj hseen
    cases hf2 with
    | cons hrel htl =>
      rename_i b0 rs
      have hb0cs : b0 ∈ cs := by
        rw [hcs]
        exact List.mem_append_right _ (List.mem_cons_self _ _)
      obtain ⟨u, hu, hune, husp⟩ := hall b0 hb0cs
      have htu : t.url = u := by
        rw [hrel] at hu
        exact Option.some.inj hu
      have hskip : (t.url == "" || specialUrl t.url) = false := by
        rw [htu]
        simp [husp, hune]
      have hmapurl : cs.map Bookmark.url
          = done.map Bookmark.url ++ b0.url :: rs.map Bookmark.url := by
        rw [hcs]
        simp
      have hmid : b0.url ∉ done.map Bookmark.url ∧ b0.url ∉ rs.map Bookmark.url := by
        apply nodup_middle_not_mem
        rw [← hmapurl]
        exact hurls
      have hnotdone : ∀ x ∈ done, x.url ≠ some u := by
        intro x hx he
        exact hmid.1 (by rw [hu, ← he]; exact List.mem_map_of_mem _ hx)
      have hnotrs : ∀ x ∈ rs, x.url ≠ some u := by
        intro x hx he
        exact hmid.2 (by rw [hu, ← he]; exact List.mem_map_of_mem _ hx)
      have hlk : lookupLast t.url (withIdx 0 cs) = some (done.length, b0) := by
        rw [htu, hcs]
        exact lookupLast_split u done rs b0 hu hune hnotdone hnotrs
      have hcs2 : cs = (done ++ [b0]) ++ rs := by
        rw [hcs]
        exact List.append_cons done b0 rs
      have hseen2 : ∀ b ∈ done ++ [b0], b.id ∈ addToSet seen b0.id := by
        intro b hb
        rcases List.mem_append.mp hb with hbd | hbb
        · exact (mem_addToSet _ _ _).mpr (Or.inl (hseen b hbd))
        · rw [List.mem_singleton] at hbb
          rw [hbb]
          exact (mem_addToSet _ _ _).mpr (Or.inr rfl)
      by_cases hti : (b0.title != t.title) = true
      · have hrec := ih rs (done ++ [b0]) (updateTitle f b0.id t.title) nid
          (addToSet seen b0.id)
          (recordPinned t ⟨f, nid, seen, pin, done.length, tick⟩).pinnedUrls
          (tick + 1) hcs2 htl
          (by rw [updateTitle_idurl]; exact hproj) hseen2
        simp only [syncTBLoop, hskip, Bool.false_eq_true, if_false, hlk, noFail,
          hti, if_true, pure_bind, recordPinned_folder, recordPinned_nextId,
          recordPinned_seen, recordPinned_bookmarkIndex, recordPinned_tick,
          bne_self_eq_false]
        simpa [List.length_append] using hrec
      · have hti2 : (b0.title != t.title) = false := by simpa using hti
        have hrec := ih rs (done ++ [b0]) f nid (addToSet seen b0.id)
          (recordPinned t ⟨f, nid, seen, pin, done.length, tick⟩).pinnedUrls
          tick hcs2 htl hproj hseen2
        simp only [syncTBLoop, hskip, Bool.false_eq_true, if_false, hlk, noFail,
          hti2, pure_bind, recordPinned_folder, recordPinned_nextId,
          recordPinned_seen, recordPinned_bookmarkIndex, recordPinned_tick,
          bne_self_eq_false]
        simpa [List.length_append] using hrec

/-- `openFolderAsNewWindow` on a folder of ordinary URL entries: the new
window's id is the fresh counter, its tabs are URL-aligned with the folder's
children in order (the initial blank tab removed), and the folders, guard and
queue are untouched. -/
theorem openFolder_spec (pt : String → String) (now fId : Nat) (ft : String)
    (s : FullState) (cs : List Bookmark)
    (hcs : alookup s.browser.folders fId = some cs) (hne : cs ≠ [])
    (hall : ∀ b ∈ cs, ∃ u, b.url = some u ∧ u ≠ "" ∧ specialUrl u = false)
    (hwin : ∀ p ∈ s.browser.windows, p.1 < s.browser.nextId) :
    ∃ s1 ts2, openFolderAsNewWindow pt now fId ft s = some (s1, s.browser.nextId)
      ∧ alookup s1.browser.windows s.browser.nextId = some ts2
      ∧ List.Forall₂ (fun (t : Tab) (b : Bookmark) => b.url = some t.url) ts2 cs
      ∧ s1.browser.folders = s.browser.folders
      ∧ alookup s1.windowMappings s.browser.nextId = some (fId, ft)
      ∧ s1.isSyncing = s.isSyncing
      ∧ s1.pendingSyncs = s.pendingSyncs
      ∧ s1.pinnedTabsByFolder = s.pinnedTabsByFolder := by
  have hfilter : (cs.filter (fun b =>
      match b.url with
      | some u => u != "" && !specialUrl u
      | none => false)) = cs := by
    rw [List.filter_eq_self]
    intro b hb
    obtain ⟨u, hu, hune, husp⟩ := hall b hb
    rw [hu]
    simp [hune, husp]
  have hie : cs.isEmpty = false := by
    cases cs with
    | nil => exact absurd rfl hne
    | cons c cr => rfl
  have hfresh1 : alookup
      (s.browser.windows ++
        [(s.browser.nextId,
          [⟨s.browser.nextId + 1, "about:blank", pt "about:blank", false⟩])])
      s.browser.nextId
      = some [⟨s.browser.nextId + 1, "about:blank", pt "about:blank", false⟩] :=
    alookup_append_fresh _ _ _ (fun p hp => Nat.ne_of_lt (hwin p hp))
  obtain ⟨ts2, hl, hf, hfold⟩ := createTabsFold_spec pt
    ((alookup s.pinnedTabsByFolder fId).getD []) s.browser.nextId cs
    { s.browser with
      windows := s.browser.windows ++
        [(s.browser.nextId,
          [⟨s.browser.nextId + 1, "about:blank", pt "about:blank", false⟩])],
      nextId := s.browser.nextId + 2 }
    [⟨s.browser.nextId + 1, "about:blank", pt "about:blank", false⟩]
    hfresh1
    (fun b hb => ⟨(hall b hb).choose, (hall b hb).choose_spec.1⟩)
  cases hopen : openFolderAsNewWindow pt now fId ft s with
  | none =>
    exfalso
    simp only [openFolderAsNewWindow, hcs, hfilter, hie, Bool.false_eq_true, if_false,
      createWindow] at hopen
    exact Option.noConfusion hopen
  | some pr =>
    obtain ⟨s1, wid⟩ := pr
    simp only [openFolderAsNewWindow, hcs, hfilter, hie, Bool.false_eq_true, if_false,
      createWindow, hfresh1, Option.getD_some, List.head?, Option.map_some',
      Option.some.injEq, Prod.mk.injEq] at hopen
    obtain ⟨hs1, hwid⟩ := hopen
    subst hwid
    refine ⟨s1, ts2, rfl, ?_, hf, ?_, ?_, ?_, ?_, ?_⟩
    · rw [← hs1]
      simp only [hfresh1, Option.getD_some, List.head?, Option.map_some', hl,
        List.singleton_append, removeTabById]
      rw [List.eraseP_cons_of_pos (by simp)]
      exact alookup_setEntry_self _ _ _
    · rw [← hs1]
      simp only [hfresh1, Option.getD_some, List.head?, Option.map_some']
      simpa using hfold
    · rw [← hs1]
      exact alookup_setEntry_self _ _ _
    · rw [← hs1]
    · rw [← hs1]
    · rw [← hs1]

/-- C9: round trip — for a folder whose children are all ordinary URL entries
with pairwise-distinct URLs, `openFolderAsNewWindow` followed immediately by a
tab-to-bookmark pass on the new window leaves the folder's entries (their id
and URL sequence, in order) unchanged, for every page-title oracle. -/
theorem c9_round_trip (pt : String → String) (now : Nat) (s : FullState) (fId : Nat)
    (ft : String) (cs : List Bookmark)
    (hsy : s.isSyncing = false) (hpend : s.pendingSyncs = [])
    (hcs : alookup s.browser.folders fId = some cs)
    (hne : cs ≠ [])
    (hall : ∀ b ∈ cs, ∃ u, b.url = some u ∧ u ≠ "" ∧ specialUrl u = false)
    (hurls : (cs.map Bookmark.url).Nodup)
    (hids : (cs.map Bookmark.id).Nodup)
    (hwin : ∀ p ∈ s.browser.windows, p.1 < s.browser.nextId) :
    ∃ s1 wid, openFolderAsNewWindow pt now fId ft s = some (s1, wid)
      ∧ ∃ final, alookup (syncTabsToBookmarks noFail wid s1).browser.folders fId = some final
        ∧ final.map (fun b => (b.id, b.url)) = cs.map (fun b => (b.id, b.url)) := by
  obtain ⟨s1, ts2, hopen, hts, hf, hfold, hmap, hsy1, hpend1, hpins1⟩ :=
    openFolder_spec pt now fId ft s cs hcs hne hall hwin
  refine ⟨s1, s.browser.nextId, hopen, ?_⟩
  simp only [syncTabsToBookmarks]
  rw [syncTabsGo_run_empty noFail _ _ fId ft s1 hmap
    (by rw [hsy1]; exact hsy) (by rw [hpend1]; exact hpend)]
  have hcs1 : alookup s1.browser.folders fId = some cs := by rw [hfold]; exact hcs
  obtain ⟨ctx2, hloop, hproj, hseen⟩ := syncTBLoop_aligned cs hall hurls hids
    ts2 cs [] cs s1.browser.nextId [] [] 0 (by simp) hf rfl (by simp)
  simp only [List.length_nil] at hloop
  have htabs : (alookup s1.browser.windows s.browser.nextId).getD [] = ts2 := by
    rw [hts]
    rfl
  have hclean : cleanupTB noFail ctx2.seen cs (ctx2.folder, ctx2.tick)
      = .ok (ctx2.folder, ctx2.tick) :=
    cleanupTB_noop ctx2.seen cs ctx2.folder ctx2.tick hseen
  simp only [runTabsPass, syncTabsBody, hcs1, htabs, hloop, hclean, applyTabsOutcome]
  exact ⟨ctx2.folder, alookup_setEntry_self _ _ _, hproj⟩

/-- Folder of three ordinary, distinct URL entries used to witness the
round-trip theorem. -/
def wit9 : FullState :=
  { windowMappings := [],
    pinnedTabsByFolder := [(10, ["ub"])],
    folderLastUsed := [],
    isSyncing := false,
    pendingSyncs := [],
    browser :=
      { windows := [],
        folders := [(10, [⟨100, some "ua", "A"⟩, ⟨101, some "ub", "B"⟩, ⟨102, some "uc", "C"⟩])],
        nextId := 1 } }

/-- The folder children of `wit9`. -/
def wit9cs : List Bookmark :=
  [⟨100, some "ua", "A"⟩, ⟨101, some "ub", "B"⟩, ⟨102, some "uc", "C"⟩]

theorem wit9_urls : ∀ b ∈ wit9cs, ∃ u, b.url = some u ∧ u ≠ "" ∧ specialUrl u = false := by
  intro b hb
  rcases List.mem_cons.mp hb with rfl | hb2
  · exact ⟨"ua", rfl, by decide, by decide⟩
  · rcases List.mem_cons.mp hb2 with rfl | hb3
    · exact ⟨"ub", rfl, by decide, by decide⟩
    · rcases List.mem_cons.mp hb3 with rfl | hb4
      · exact ⟨"uc", rfl, by decide, by decide⟩
      · exact absurd hb4 (List.not_mem_nil b)

theorem c9_round_trip_witness :
    (wit9.isSyncing = false)
    ∧ (wit9.pendingSyncs = [])
    ∧ (alookup wit9.browser.folders 10 = some wit9cs)
    ∧ (wit9cs ≠ [])
    ∧ (∀ b ∈ wit9cs, ∃ u, b.url = some u ∧ u ≠ "" ∧ specialUrl u = false)
    ∧ ((wit9cs.map Bookmark.url).Nodup)
    ∧ ((wit9cs.map Bookmark.id).Nodup)
    ∧ (∀ p ∈ wit9.browser.windows, p.1 < wit9.browser.nextId)
    ∧ (∃ s1 wid, openFolderAsNewWindow (fun _ => "") 5 10 "F" wit9 = some (s1, wid)
      ∧ ∃ final, alookup (syncTabsToBookmarks noFail wid s1).browser.folders 10 = some final
        ∧ final.map (fun b => (b.id, b.url)) = wit9cs.map (fun b => (b.id, b.url))) :=
  ⟨by decide, by decide, by decide, by decide, wit9_urls, by decide, by decide, by decide,
    c9_round_trip (fun _ => "") 5 wit9 10 "F" wit9cs (by decide) (by decide) (by decide)
      (by decide) wit9_urls (by decide) (by decide) (by decide)⟩
